import Mathlib

/-!
Verification of the `letters` grid widget (`src/index.tsx`).

The repository holds three near-identical variants of one React component
(`ChromaGrid`).  We shallowly embed the pure logic the spec talks about:

* the grid sizer `calculateGrid` (variants 2 and 3),
* the color generators `getUniqueColors` / `getPairFromPalette`,
  `getRandomHexColor` and `getComplementaryColor`,
* the per-cell click handler `handleCellClick`,
* the item-list construction inside `calculateGrid`,
* the fullscreen toggle `toggleFullscreen`.

JavaScript numbers are modelled by `ℚ` (exact arithmetic, the spec asks
for correctness "within floating tolerance"); `Math.random()` results are
passed in explicitly as parameters; `Math.floor`/`Math.ceil` become
`Int.floor`/`Int.ceil`.
-/

namespace Letters

/-- Grid configuration as stored in the `gridConfig` React state:
`{ cols, rows, cellSize }`. -/
structure GridConfig where
  cols : ℤ
  rows : ℤ
  cellSize : ℚ
  deriving Repr, DecidableEq

/-- The pure core of `calculateGrid` (src/index.tsx, variants 2 and 3):
`cols = Math.ceil(width / targetSize)`, `cellSize = width / cols`,
`rows = Math.ceil(height / cellSize)`. -/
def calculateGrid (width height targetSize : ℚ) : GridConfig :=
  let cols : ℤ := ⌈width / targetSize⌉
  let cellSize : ℚ := width / (cols : ℚ)
  let rows : ℤ := ⌈height / cellSize⌉
  { cols := cols, rows := rows, cellSize := cellSize }

/-- The fixed five-color palette `PALETTE` (variant 3 form, with `#`). -/
def PALETTE : List String :=
  ["#ffbe0b", "#fb5607", "#ff006e", "#8338ec", "#3a86ff"]

/-- The pure core of `getUniqueColors` (and `getPairFromPalette`):
given the sampled background index and the stream of sampled foreground
candidates, the `while (fgIndex === bgIndex)` loop keeps resampling, i.e.
it returns the first candidate different from `bgIndex`; if the finite
stream of samples never differs the loop has not terminated (`none`). -/
def getUniqueColors (bgIndex : Fin 5) (fgSamples : List (Fin 5)) :
    Option (String × String) :=
  match fgSamples.find? (fun j => j ≠ bgIndex) with
  | some fgIndex => some (PALETTE.get (bgIndex.cast (by rfl)),
      PALETTE.get (fgIndex.cast (by rfl)))
  | none => none

/-- One grid cell, the `GridItem` interface.  The identifier
`` `${i}-${Math.random()}` `` is modelled as the pair of the index and the
random draw (string interpolation kept abstract as the pair it encodes). -/
structure GridItem where
  id : ℕ × ℚ
  letter : Char
  bgColor : String
  fgColor : String
  deriving Repr, DecidableEq

/-- The updater passed to `setItems` by `handleCellClick`:
`next = [...prev]; next[index] = { ...next[index], letter, bgColor,
fgColor }` for an in-range `index` (the claims only cover in-range
indices).  The fresh letter and color pair drawn inside the handler are
parameters. -/
def handleCellClick : List GridItem → ℕ → Char → String → String → List GridItem
  | [], _, _, _, _ => []
  | item :: rest, 0, l, bg, fg =>
      { item with letter := l, bgColor := bg, fgColor := fg } :: rest
  | item :: rest, n + 1, l, bg, fg => item :: handleCellClick rest n l bg fg

/-- The `Array.from({ length: total }, (_, i) => ...)` cell-list
construction inside `calculateGrid` / `generateGrid`: cell `i` gets the
identifier built from `i` and a fresh random draw, a random letter and a
color pair, all supplied by the ambient randomness. -/
def mkItems (total : ℕ) (randId : ℕ → ℚ) (randLetter : ℕ → Char)
    (randColors : ℕ → String × String) : List GridItem :=
  (List.range total).map fun i =>
    { id := (i, randId i), letter := randLetter i,
      bgColor := (randColors i).1, fgColor := (randColors i).2 }

/-- The regeneration step of `calculateGrid`: `total = cols * rows` cells
are created for the freshly computed grid configuration. -/
def regenerateItems (cfg : GridConfig) (randId : ℕ → ℚ)
    (randLetter : ℕ → Char) (randColors : ℕ → String × String) :
    List GridItem :=
  mkItems (cfg.cols * cfg.rows).toNat randId randLetter randColors

/-- Fullscreen-related state: whether the document is actually fullscreen
(`document.fullscreenElement` non-null) and the React `isFullscreen`
flag. -/
structure FsState where
  actualFullscreen : Bool
  isFullscreen : Bool
  deriving Repr, DecidableEq

/-- `toggleFullscreen` (src/index.tsx): when not fullscreen it calls
`requestFullscreen().catch(() => {})` — the environment may grant or
refuse the request (`requestSucceeds`), a refusal is caught and ignored —
and then calls `setIsFullscreen(true)` unconditionally; when fullscreen it
exits and sets the flag to `false`. -/
def toggleFullscreen (requestSucceeds : Bool) (s : FsState) : FsState :=
  if s.actualFullscreen = false then
    { actualFullscreen := requestSucceeds, isFullscreen := true }
  else
    { actualFullscreen := false, isFullscreen := false }

end Letters

namespace Letters

/-- C5 helper: `⌈w/t⌉ ≥ 1` for positive `w`, `t`. -/
theorem one_le_ceil_div (w t : ℚ) (hw : 0 < w) (ht : 0 < t) :
    (1 : ℤ) ≤ ⌈w / t⌉ := by
  have h : (0 : ℚ) < w / t := div_pos hw ht
  have := Int.ceil_pos.mpr h
  omega

/-- `handleCellClick` never changes the list length. -/
theorem handleCellClick_length (prev : List GridItem) (i : ℕ) (l : Char)
    (bg fg : String) :
    (handleCellClick prev i l bg fg).length = prev.length := by
  induction prev generalizing i with
  | nil => rfl
  | cons a rest ih =>
      cases i with
      | zero => rfl
      | succ n => simp [handleCellClick, ih]

/-- `handleCellClick` leaves every index other than the clicked one
untouched. -/
theorem handleCellClick_getElem?_ne (prev : List GridItem) (i j : ℕ)
    (l : Char) (bg fg : String) (hne : j ≠ i) :
    (handleCellClick prev i l bg fg)[j]? = prev[j]? := by
  induction prev generalizing i j with
  | nil => rfl
  | cons a rest ih =>
      cases i with
      | zero =>
          cases j with
          | zero => exact absurd rfl hne
          | succ m => simp [handleCellClick]
      | succ n =>
          cases j with
          | zero => simp [handleCellClick]
          | succ m =>
              simp only [handleCellClick, List.getElem?_cons_succ]
              exact ih n m (by omega)

/-- At the clicked index, `handleCellClick` performs exactly the record
update `{ ...next[index], letter, bgColor, fgColor }`. -/
theorem handleCellClick_getElem?_eq (prev : List GridItem) (i : ℕ)
    (l : Char) (bg fg : String) :
    (handleCellClick prev i l bg fg)[i]? =
      (prev[i]?).map fun item =>
        { item with letter := l, bgColor := bg, fgColor := fg } := by
  induction prev generalizing i with
  | nil => rfl
  | cons a rest ih =>
      cases i with
      | zero => simp [handleCellClick]
      | succ n =>
          simp only [handleCellClick, List.getElem?_cons_succ]
          exact ih n

end Letters

/-- C1: for every positive viewport width, height and target cell size, the
grid sizer computes `columns = ⌈width/target⌉`, then `cellSize =
width/columns` (so the columns exactly tile the width: `cellSize * columns
= width`), then `rows = ⌈height/cellSize⌉`. -/
theorem C1_calculateGrid_formula (width height targetSize : ℚ)
    (hw : 0 < width) (ht : 0 < targetSize) :
    (Letters.calculateGrid width height targetSize).cols = ⌈width / targetSize⌉ ∧
    (Letters.calculateGrid width height targetSize).cellSize =
      width / (⌈width / targetSize⌉ : ℚ) ∧
    (Letters.calculateGrid width height targetSize).cellSize *
      ((Letters.calculateGrid width height targetSize).cols : ℚ) = width ∧
    (Letters.calculateGrid width height targetSize).rows =
      ⌈height / (Letters.calculateGrid width height targetSize).cellSize⌉ := by
  have hcols : (1 : ℤ) ≤ ⌈width / targetSize⌉ :=
    Letters.one_le_ceil_div width targetSize hw ht
  have hne : ((⌈width / targetSize⌉ : ℤ) : ℚ) ≠ 0 := by
    have : (0 : ℤ) < ⌈width / targetSize⌉ := by omega
    exact_mod_cast this.ne'
  refine ⟨rfl, rfl, ?_, rfl⟩
  simp only [Letters.calculateGrid]
  field_simp

/-- C1 witness: evaluate at width = 1100, height = 800, target = 110. -/
theorem C1_calculateGrid_formula_witness :
    (0 : ℚ) < 1100 ∧ (0 : ℚ) < 110 ∧
    ((Letters.calculateGrid 1100 800 110).cols = ⌈(1100 : ℚ) / 110⌉ ∧
     (Letters.calculateGrid 1100 800 110).cellSize =
       1100 / ((⌈(1100 : ℚ) / 110⌉ : ℤ) : ℚ) ∧
     (Letters.calculateGrid 1100 800 110).cellSize *
       ((Letters.calculateGrid 1100 800 110).cols : ℚ) = 1100 ∧
     (Letters.calculateGrid 1100 800 110).rows =
       ⌈(800 : ℚ) / (Letters.calculateGrid 1100 800 110).cellSize⌉) :=
  ⟨by norm_num, by norm_num,
    C1_calculateGrid_formula 1100 800 110 (by norm_num) (by norm_num)⟩

/-- C5: for all positive viewport widths `W` and target sizes `T`, the
computed column count `⌈W/T⌉` is at least 1, and `cellSize * columns = W`
exactly in rational arithmetic. -/
theorem C5_columns_pos_and_tile (W T height : ℚ) (hw : 0 < W) (ht : 0 < T) :
    (1 : ℤ) ≤ (Letters.calculateGrid W height T).cols ∧
    (Letters.calculateGrid W height T).cellSize *
      ((Letters.calculateGrid W height T).cols : ℚ) = W := by
  have hcols : (1 : ℤ) ≤ ⌈W / T⌉ := Letters.one_le_ceil_div W T hw ht
  refine ⟨hcols, ?_⟩
  have hne : ((⌈W / T⌉ : ℤ) : ℚ) ≠ 0 := by
    have : (0 : ℤ) < ⌈W / T⌉ := by omega
    exact_mod_cast this.ne'
  simp only [Letters.calculateGrid]
  field_simp

/-- C5 witness: width 1100, target 110, height 800 give 10 columns of
exact size 110. -/
theorem C5_columns_pos_and_tile_witness :
    (0 : ℚ) < 1100 ∧ (0 : ℚ) < 110 ∧
    ((1 : ℤ) ≤ (Letters.calculateGrid 1100 800 110).cols ∧
     (Letters.calculateGrid 1100 800 110).cellSize *
       ((Letters.calculateGrid 1100 800 110).cols : ℚ) = 1100) :=
  ⟨by norm_num, by norm_num,
    C5_columns_pos_and_tile 1100 110 800 (by norm_num) (by norm_num)⟩

/-- C4: in the palette strategy, every generated pair has
`backgroundColor ≠ foregroundColor` — the foreground index is the first
resample differing from the background index, and the five palette colors
are pairwise distinct. -/
theorem C4_palette_pair_distinct (bgIndex : Fin 5)
    (fgSamples : List (Fin 5)) (pair : String × String)
    (h : Letters.getUniqueColors bgIndex fgSamples = some pair) :
    pair.1 ≠ pair.2 ∧ Letters.PALETTE.Nodup := by
  have hnodup : Letters.PALETTE.Nodup := by decide
  refine ⟨?_, hnodup⟩
  unfold Letters.getUniqueColors at h
  cases hfind : fgSamples.find? (fun j => j ≠ bgIndex) with
  | none => rw [hfind] at h; exact absurd h (by simp)
  | some fgIndex =>
      rw [hfind] at h
      have hne : fgIndex ≠ bgIndex := by
        have h1 := List.find?_some hfind
        simpa using h1
      have hpair : pair = (Letters.PALETTE.get (bgIndex.cast (by rfl)),
          Letters.PALETTE.get (fgIndex.cast (by rfl))) := by
        exact (Option.some.injEq _ _).mp h.symm
      rw [hpair]
      intro hcontra
      have := (hnodup.get_inj_iff).mp hcontra
      have : bgIndex = fgIndex := by
        have h5 : (5 : ℕ) = Letters.PALETTE.length := by rfl
        exact Fin.cast_injective h5 this
      exact hne this.symm

/-- C4 witness: background index 0 with resamples [0, 2] yields the pair
(#ffbe0b, #ff006e), which is distinct. -/
theorem C4_palette_pair_distinct_witness :
    ("#ffbe0b", "#ff006e").1 ≠ ("#ffbe0b", "#ff006e").2 ∧
    Letters.PALETTE.Nodup :=
  C4_palette_pair_distinct 0 [0, 2] ("#ffbe0b", "#ff006e") (by decide)

/-- C6: after regeneration with the grid configuration computed by
`calculateGrid`, the item list has exactly `cols * rows` cells, and cell
`i` carries the fresh identifier built from `i` and the `i`-th random
draw of this regeneration — hence all identifiers are distinct. -/
theorem C6_regenerate_count_and_ids (width height targetSize : ℚ)
    (randId : ℕ → ℚ) (randLetter : ℕ → Char)
    (randColors : ℕ → String × String) :
    (Letters.regenerateItems (Letters.calculateGrid width height targetSize)
        randId randLetter randColors).length =
      ((Letters.calculateGrid width height targetSize).cols *
        (Letters.calculateGrid width height targetSize).rows).toNat ∧
    (Letters.regenerateItems (Letters.calculateGrid width height targetSize)
        randId randLetter randColors).map Letters.GridItem.id =
      (List.range ((Letters.calculateGrid width height targetSize).cols *
        (Letters.calculateGrid width height targetSize).rows).toNat).map
        (fun i => (i, randId i)) ∧
    ((Letters.regenerateItems (Letters.calculateGrid width height targetSize)
        randId randLetter randColors).map Letters.GridItem.id).Nodup := by
  have hmap : (Letters.regenerateItems
      (Letters.calculateGrid width height targetSize)
      randId randLetter randColors).map Letters.GridItem.id =
      (List.range ((Letters.calculateGrid width height targetSize).cols *
        (Letters.calculateGrid width height targetSize).rows).toNat).map
        (fun i => (i, randId i)) := by
    simp [Letters.regenerateItems, Letters.mkItems, List.map_map]
  refine ⟨?_, hmap, ?_⟩
  · simp [Letters.regenerateItems, Letters.mkItems]
  · rw [hmap]
    apply List.Nodup.map
    · intro a b hab
      exact (Prod.mk.injEq _ _ _ _).mp hab |>.1
    · exact List.nodup_range _

/-- C7: a click on in-range cell `i` resamples only that cell's letter
and color pair: the length is unchanged, every other index is unchanged,
and cell `i` keeps its identifier while receiving the fresh letter and
colors. -/
theorem C7_click_frame (prev : List Letters.GridItem) (i : ℕ) (l : Char)
    (bg fg : String) (hi : i < prev.length) :
    (Letters.handleCellClick prev i l bg fg).length = prev.length ∧
    (∀ j, j ≠ i → (Letters.handleCellClick prev i l bg fg)[j]? = prev[j]?) ∧
    (Letters.handleCellClick prev i l bg fg)[i]? =
      some { prev.get ⟨i, hi⟩ with
        letter := l
        bgColor := bg
        fgColor := fg } := by
  refine ⟨Letters.handleCellClick_length prev i l bg fg,
    fun j hj => Letters.handleCellClick_getElem?_ne prev i j l bg fg hj, ?_⟩
  rw [Letters.handleCellClick_getElem?_eq]
  rw [List.getElem?_eq_getElem hi]
  simp [List.get_eq_getElem]

/-- C7 witness: clicking cell 0 of a two-cell list keeps its identifier
(0, 1/2), replaces its letter and colors, and leaves cell 1 alone. -/
theorem C7_click_frame_witness :
    (Letters.handleCellClick
        [⟨(0, 1/2), 'A', "#ffbe0b", "#fb5607"⟩,
         ⟨(1, 1/3), 'B', "#ff006e", "#8338ec"⟩] 0 'Q' "#3a86ff" "#ff006e").length =
      ([⟨(0, 1/2), 'A', "#ffbe0b", "#fb5607"⟩,
        ⟨(1, 1/3), 'B', "#ff006e", "#8338ec"⟩] : List Letters.GridItem).length ∧
    (∀ j, j ≠ 0 →
      (Letters.handleCellClick
        [⟨(0, 1/2), 'A', "#ffbe0b", "#fb5607"⟩,
         ⟨(1, 1/3), 'B', "#ff006e", "#8338ec"⟩] 0 'Q' "#3a86ff" "#ff006e")[j]? =
      ([⟨(0, 1/2), 'A', "#ffbe0b", "#fb5607"⟩,
        ⟨(1, 1/3), 'B', "#ff006e", "#8338ec"⟩] : List Letters.GridItem)[j]?) ∧
    (Letters.handleCellClick
        [⟨(0, 1/2), 'A', "#ffbe0b", "#fb5607"⟩,
         ⟨(1, 1/3), 'B', "#ff006e", "#8338ec"⟩] 0 'Q' "#3a86ff" "#ff006e")[0]? =
      some { ([⟨(0, 1/2), 'A', "#ffbe0b", "#fb5607"⟩,
              ⟨(1, 1/3), 'B', "#ff006e", "#8338ec"⟩] :
              List Letters.GridItem).get ⟨0, by norm_num⟩ with
        letter := 'Q'
        bgColor := "#3a86ff"
        fgColor := "#ff006e" } :=
  C7_click_frame
    [⟨(0, 1/2), 'A', "#ffbe0b", "#fb5607"⟩,
     ⟨(1, 1/3), 'B', "#ff006e", "#8338ec"⟩] 0 'Q' "#3a86ff" "#ff006e"
    (by norm_num)

/-- C8: when the document is not fullscreen and the fullscreen request
fails, the failure is swallowed and the actual fullscreen state stays
false, yet `toggleFullscreen` still sets the `isFullscreen` flag to true
— indeed it sets the flag whether or not the request succeeds. -/
theorem C8_toggle_flag_unconditional (s : Letters.FsState)
    (h : s.actualFullscreen = false) :
    Letters.toggleFullscreen false s =
      { actualFullscreen := false, isFullscreen := true } ∧
    (∀ requestSucceeds : Bool,
      (Letters.toggleFullscreen requestSucceeds s).isFullscreen = true) := by
  constructor
  · simp [Letters.toggleFullscreen, h]
  · intro requestSucceeds
    simp [Letters.toggleFullscreen, h]

/-- C8 witness: starting outside fullscreen with the flag down, a failed
request leaves the document non-fullscreen but raises the flag. -/
theorem C8_toggle_flag_unconditional_witness :
    Letters.toggleFullscreen false ⟨false, false⟩ =
      { actualFullscreen := false, isFullscreen := true } ∧
    (∀ requestSucceeds : Bool,
      (Letters.toggleFullscreen requestSucceeds ⟨false, false⟩).isFullscreen =
        true) :=
  C8_toggle_flag_unconditional ⟨false, false⟩ rfl

namespace Letters

/-- Perceptual brightness `(r * 299 + g * 587 + b * 114) / 1000` used by
`getComplementaryColor` (src/index.tsx, variant 2). -/
def brightness (r g b : ℤ) : ℚ :=
  ((r : ℚ) * 299 + (g : ℚ) * 587 + (b : ℚ) * 114) / 1000

/-- The channel-level core of `getComplementaryColor` (hex parsing and
formatting stripped; the claims quantify over the 24-bit channels
directly).  `comp* = 255 - *` is the basic inversion; when the brightness
gap to the inversion is below 50, the code overwrites the comp channels
from the ORIGINAL channels: `Math.max(0, r - 150)` when the original is
bright (`> 128`), `Math.min(255, r + 150)` when it is dark. -/
def getComplementaryColor (r g b : ℤ) : ℤ × ℤ × ℤ :=
  if |brightness r g b - brightness (255 - r) (255 - g) (255 - b)| < 50 then
    if brightness r g b > 128 then
      (max 0 (r - 150), max 0 (g - 150), max 0 (b - 150))
    else
      (min 255 (r + 150), min 255 (g + 150), min 255 (b + 150))
  else
    (255 - r, 255 - g, 255 - b)

/-- The fallback construction as the spec sentence words it: push the
*comp* channels — the inverted channels `255 - c` — toward black (original
bright) or white (original dark) by 150, clamped to [0, 255]. -/
def specPushCompChannels (r g b : ℤ) : ℤ × ℤ × ℤ :=
  if brightness r g b > 128 then
    (max 0 (255 - r - 150), max 0 (255 - g - 150), max 0 (255 - b - 150))
  else
    (min 255 (255 - r + 150), min 255 (255 - g + 150), min 255 (255 - b + 150))

/-- The fallback construction the code actually performs: push the
ORIGINAL channels toward black (original bright) or white (original dark)
by 150, clamped to [0, 255]. -/
def pushOriginalChannels (r g b : ℤ) : ℤ × ℤ × ℤ :=
  if brightness r g b > 128 then
    (max 0 (r - 150), max 0 (g - 150), max 0 (b - 150))
  else
    (min 255 (r + 150), min 255 (g + 150), min 255 (b + 150))

/-- Brightness of the channel-wise inversion is `255` minus the original
brightness (the weights sum to 1000). -/
theorem brightness_invert (r g b : ℤ) :
    brightness (255 - r) (255 - g) (255 - b) = 255 - brightness r g b := by
  unfold brightness
  push_cast
  ring

/-- Darkening one channel by `max 0 (c - 150)` removes at least 10/17 of
its value. -/
theorem push_down_channel (c : ℤ) (h0 : 0 ≤ c) (h1 : c ≤ 255) :
    10 * c ≤ 17 * (c - max 0 (c - 150)) := by
  rcases max_cases 0 (c - 150) with ⟨he, hle⟩ | ⟨he, hle⟩ <;> rw [he] <;> omega

/-- Brightening one channel to `min 255 (c + 150)` adds at least 10/17 of
its headroom `255 - c`. -/
theorem push_up_channel (c : ℤ) (h0 : 0 ≤ c) (h1 : c ≤ 255) :
    10 * (255 - c) ≤ 17 * (min 255 (c + 150) - c) := by
  rcases min_cases 255 (c + 150) with ⟨he, hle⟩ | ⟨he, hle⟩ <;> rw [he] <;> omega

/-- Difference of brightnesses as a single scaled integer. -/
theorem brightness_sub (r g b x y z : ℤ) :
    brightness r g b - brightness x y z =
      ((299 * (r - x) + 587 * (g - y) + 114 * (b - z) : ℤ) : ℚ) / 1000 := by
  unfold brightness
  push_cast
  ring

/-- Core contrast bound: for every in-range background the brightness gap
between the background and the computed foreground is at least 50. -/
theorem complementary_brightness_diff_ge (r g b : ℤ)
    (hr0 : 0 ≤ r) (hr1 : r ≤ 255) (hg0 : 0 ≤ g) (hg1 : g ≤ 255)
    (hb0 : 0 ≤ b) (hb1 : b ≤ 255) :
    50 ≤ |brightness r g b -
      brightness (getComplementaryColor r g b).1
        (getComplementaryColor r g b).2.1
        (getComplementaryColor r g b).2.2| := by
  unfold getComplementaryColor
  split_ifs with h1 h2
  · -- bright original, channels pushed down from the original values
    have hm : (128000 : ℚ) <
        ((299 * r + 587 * g + 114 * b : ℤ) : ℚ) := by
      have h3 := h2
      unfold brightness at h3
      rw [gt_iff_lt, lt_div_iff₀ (by norm_num : (0 : ℚ) < 1000)] at h3
      push_cast
      linarith
    have hmz : (128000 : ℤ) < 299 * r + 587 * g + 114 * b := by
      exact_mod_cast hm
    have hcr := push_down_channel r hr0 hr1
    have hcg := push_down_channel g hg0 hg1
    have hcb := push_down_channel b hb0 hb1
    have hgap : (50000 : ℤ) ≤
        299 * (r - max 0 (r - 150)) + 587 * (g - max 0 (g - 150)) +
          114 * (b - max 0 (b - 150)) := by
      nlinarith [hcr, hcg, hcb, hmz]
    show (50 : ℚ) ≤ |brightness r g b -
      brightness (max 0 (r - 150)) (max 0 (g - 150)) (max 0 (b - 150))|
    rw [brightness_sub r g b
      (max 0 (r - 150)) (max 0 (g - 150)) (max 0 (b - 150))]
    refine le_trans ?_ (le_abs_self _)
    rw [le_div_iff₀ (by norm_num : (0 : ℚ) < 1000)]
    have : (50 : ℚ) * 1000 = ((50000 : ℤ) : ℚ) := by norm_num
    rw [this]
    exact_mod_cast hgap
  · -- dark original, channels pushed up from the original values
    have hm : ((299 * r + 587 * g + 114 * b : ℤ) : ℚ) ≤ 128000 := by
      have hb128 : brightness r g b ≤ 128 := le_of_not_lt h2
      unfold brightness at hb128
      rw [div_le_iff₀ (by norm_num : (0 : ℚ) < 1000)] at hb128
      push_cast
      linarith
    have hmz : 299 * r + 587 * g + 114 * b ≤ (128000 : ℤ) := by
      exact_mod_cast hm
    have hcr := push_up_channel r hr0 hr1
    have hcg := push_up_channel g hg0 hg1
    have hcb := push_up_channel b hb0 hb1
    have hgap : (50000 : ℤ) ≤
        299 * (min 255 (r + 150) - r) + 587 * (min 255 (g + 150) - g) +
          114 * (min 255 (b + 150) - b) := by
      nlinarith [hcr, hcg, hcb, hmz]
    show (50 : ℚ) ≤ |brightness r g b -
      brightness (min 255 (r + 150)) (min 255 (g + 150)) (min 255 (b + 150))|
    rw [abs_sub_comm]
    rw [brightness_sub (min 255 (r + 150)) (min 255 (g + 150))
      (min 255 (b + 150)) r g b]
    refine le_trans ?_ (le_abs_self _)
    rw [le_div_iff₀ (by norm_num : (0 : ℚ) < 1000)]
    have : (50 : ℚ) * 1000 = ((50000 : ℤ) : ℚ) := by norm_num
    rw [this]
    exact_mod_cast hgap
  · -- inversion already far enough in brightness
    show (50 : ℚ) ≤ |brightness r g b -
      brightness (255 - r) (255 - g) (255 - b)|
    exact le_of_not_lt h1

end Letters

/-- C2: for every 24-bit background, the perceptual brightness difference
(weights 299/587/114 over 1000) between background and the foreground
computed by `getComplementaryColor` is at least the threshold 50, or the
foreground channels are at the clamped extremes 0 or 255.  (The left
disjunct in fact always holds.) -/
theorem C2_contrast_or_extremes (r g b : ℤ)
    (hr0 : 0 ≤ r) (hr1 : r ≤ 255) (hg0 : 0 ≤ g) (hg1 : g ≤ 255)
    (hb0 : 0 ≤ b) (hb1 : b ≤ 255) :
    50 ≤ |Letters.brightness r g b -
      Letters.brightness (Letters.getComplementaryColor r g b).1
        (Letters.getComplementaryColor r g b).2.1
        (Letters.getComplementaryColor r g b).2.2| ∨
    (((Letters.getComplementaryColor r g b).1 = 0 ∨
      (Letters.getComplementaryColor r g b).1 = 255) ∧
     ((Letters.getComplementaryColor r g b).2.1 = 0 ∨
      (Letters.getComplementaryColor r g b).2.1 = 255) ∧
     ((Letters.getComplementaryColor r g b).2.2 = 0 ∨
      (Letters.getComplementaryColor r g b).2.2 = 255)) :=
  Or.inl (Letters.complementary_brightness_diff_ge r g b hr0 hr1 hg0 hg1 hb0 hb1)

/-- C2 witness: pure black inverts to pure white, brightness gap 255. -/
theorem C2_contrast_or_extremes_witness :
    50 ≤ |Letters.brightness 0 0 0 -
      Letters.brightness (Letters.getComplementaryColor 0 0 0).1
        (Letters.getComplementaryColor 0 0 0).2.1
        (Letters.getComplementaryColor 0 0 0).2.2| ∨
    (((Letters.getComplementaryColor 0 0 0).1 = 0 ∨
      (Letters.getComplementaryColor 0 0 0).1 = 255) ∧
     ((Letters.getComplementaryColor 0 0 0).2.1 = 0 ∨
      (Letters.getComplementaryColor 0 0 0).2.1 = 255) ∧
     ((Letters.getComplementaryColor 0 0 0).2.2 = 0 ∨
      (Letters.getComplementaryColor 0 0 0).2.2 = 255)) :=
  C2_contrast_or_extremes 0 0 0 (by norm_num) (by norm_num) (by norm_num)
    (by norm_num) (by norm_num) (by norm_num)

/-- C3 counterexample: at background (255, 100, 100) the low-contrast
branch is taken, but the code pushes the ORIGINAL channels, giving
(105, 0, 0), while the claim's construction — pushing the inverted comp
channels — would give (0, 5, 5). -/
theorem C3_counterexample :
    |Letters.brightness 255 100 100 -
      Letters.brightness (255 - 255) (255 - 100) (255 - 100)| < 50 ∧
    Letters.getComplementaryColor 255 100 100 ≠
      Letters.specPushCompChannels 255 100 100 := by
  constructor
  · norm_num [Letters.brightness, abs_lt]
  · intro h
    have h1 : Letters.getComplementaryColor 255 100 100 = (105, 0, 0) := by
      norm_num [Letters.getComplementaryColor, Letters.brightness, abs_lt]
    have h2 : Letters.specPushCompChannels 255 100 100 = (0, 5, 5) := by
      norm_num [Letters.specPushCompChannels, Letters.brightness, abs_lt]
    rw [h1, h2] at h
    simp at h

/-- C3 amended: for every background whose brightness difference from its
channel-wise inversion is below the threshold 50, the foreground is
obtained by pushing the ORIGINAL channels toward black (original bright)
or toward white (original dark) by the fixed offset 150, clamped to
[0, 255]. -/
theorem C3_low_contrast_pushes_original (r g b : ℤ)
    (h : |Letters.brightness r g b -
      Letters.brightness (255 - r) (255 - g) (255 - b)| < 50) :
    Letters.getComplementaryColor r g b =
      Letters.pushOriginalChannels r g b := by
  unfold Letters.getComplementaryColor Letters.pushOriginalChannels
  rw [if_pos h]

/-- C3 amended witness: at (255, 100, 100) the low-contrast branch fires
and the result is the original channels pushed down. -/
theorem C3_low_contrast_pushes_original_witness :
    Letters.getComplementaryColor 255 100 100 =
      Letters.pushOriginalChannels 255 100 100 :=
  C3_low_contrast_pushes_original 255 100 100
    (by norm_num [Letters.brightness, abs_lt])

namespace Letters

/-- Lowercase base-16 rendering of a natural number, as JavaScript's
`Number.prototype.toString(16)` produces for integer values: most
significant digit first, no leading zeros, digits `0-9a-f`
(`Nat.digitChar` yields exactly those for inputs below 16). -/
def natToHex (n : ℕ) : List Char :=
  if _h : n < 16 then [Nat.digitChar n]
  else natToHex (n / 16) ++ [Nat.digitChar (n % 16)]
  decreasing_by exact Nat.div_lt_self (by omega) (by norm_num)

/-- `String.prototype.padStart(len, c)` on a char list. -/
def padStart (len : ℕ) (c : Char) (s : List Char) : List Char :=
  List.replicate (len - s.length) c ++ s

/-- `getRandomHexColor` (src/index.tsx, variant 2) with the `Math.random()`
draw passed in: `Math.floor(rand * 16777215).toString(16).padStart(6, '0')`
prefixed by `#`. -/
def getRandomHexColor (rand : ℚ) : String :=
  ⟨'#' :: padStart 6 '0' (natToHex (⌊rand * 16777215⌋).toNat)⟩

/-- A lowercase hexadecimal digit. -/
def isHexDigit (c : Char) : Bool :=
  c.isDigit || ('a' ≤ c && c ≤ 'f')

/-- Numeric value of a lowercase hex digit. -/
def hexVal (c : Char) : ℕ :=
  if c.isDigit then c.toNat - 48 else c.toNat - 87

/-- Value of a big-endian hex digit string. -/
def fromHex (s : List Char) : ℕ :=
  s.foldl (fun acc c => 16 * acc + hexVal c) 0

/-- `natToHex` emits at most `k` digits below `16 ^ k` (for `k ≥ 1`). -/
theorem natToHex_length_le (k : ℕ) :
    ∀ n, 1 ≤ k → n < 16 ^ k → (natToHex n).length ≤ k := by
  induction k with
  | zero => intro n h1 _; exact absurd h1 (by norm_num)
  | succ k ih =>
      intro n _ hn
      rw [natToHex]
      split_ifs with h16
      · simp
      · have hdiv : n / 16 < 16 ^ k := by
          rw [Nat.div_lt_iff_lt_mul (by norm_num)]
          calc n < 16 ^ (k + 1) := hn
            _ = 16 ^ k * 16 := by ring
        have hk1 : 1 ≤ k := by
          by_contra hc
          have : k = 0 := by omega
          subst this
          simp at hn
          omega
        have := ih (n / 16) hk1 hdiv
        simp [List.length_append]
        omega

/-- Every character `natToHex` emits is a lowercase hex digit. -/
theorem natToHex_mem_isHexDigit :
    ∀ n, ∀ c ∈ natToHex n, isHexDigit c = true := by
  have hdigit : ∀ d, d < 16 → isHexDigit (Nat.digitChar d) = true := by decide
  intro n
  induction n using Nat.strong_induction_on with
  | _ n ih =>
      intro c hc
      rw [natToHex] at hc
      split_ifs at hc with h16
      · rw [List.mem_singleton] at hc
        exact hc ▸ hdigit n h16
      · rw [List.mem_append, List.mem_singleton] at hc
        rcases hc with hc | hc
        · exact ih (n / 16) (Nat.div_lt_self (by omega) (by norm_num)) c hc
        · exact hc ▸ hdigit (n % 16) (Nat.mod_lt n (by norm_num))

/-- Appending one digit multiplies the value by 16 and adds the digit. -/
theorem fromHex_append_digit (a : List Char) (c : Char) :
    fromHex (a ++ [c]) = 16 * fromHex a + hexVal c := by
  simp [fromHex, List.foldl_append]

/-- `fromHex` recovers the number rendered by `natToHex`. -/
theorem fromHex_natToHex : ∀ n, fromHex (natToHex n) = n := by
  have hdigit : ∀ d, d < 16 → hexVal (Nat.digitChar d) = d := by decide
  intro n
  induction n using Nat.strong_induction_on with
  | _ n ih =>
      rw [natToHex]
      split_ifs with h16
      · have : fromHex [Nat.digitChar n] = hexVal (Nat.digitChar n) := by
          simp [fromHex]
        rw [this, hdigit n h16]
      · rw [fromHex_append_digit,
          ih (n / 16) (Nat.div_lt_self (by omega) (by norm_num)),
          hdigit (n % 16) (Nat.mod_lt n (by norm_num))]
        omega

/-- A leading `'0'` does not change the value. -/
theorem fromHex_cons_zero (t : List Char) : fromHex ('0' :: t) = fromHex t := by
  have h0 : 16 * 0 + hexVal '0' = 0 := by decide
  simp only [fromHex, List.foldl_cons]
  rw [h0]

/-- Zero padding does not change the value. -/
theorem fromHex_replicate_zero (k : ℕ) (s : List Char) :
    fromHex (List.replicate k '0' ++ s) = fromHex s := by
  induction k with
  | zero => simp
  | succ k ih =>
      rw [List.replicate_succ, List.cons_append, fromHex_cons_zero, ih]

end Letters

/-- C10: for every random draw `0 ≤ r < 1`, `getRandomHexColor` returns
`#` followed by exactly six lowercase hex digits; moreover, since the
scale factor is 16777215 rather than 16777216, the floored value is at
most 16777214, so the result is never pure white `#ffffff`. -/
theorem C10_hex_color_format (rand : ℚ) (_h0 : 0 ≤ rand) (h1 : rand < 1) :
    (Letters.getRandomHexColor rand).length = 7 ∧
    (Letters.getRandomHexColor rand).data.head? = some '#' ∧
    (∀ c ∈ (Letters.getRandomHexColor rand).data.tail,
      Letters.isHexDigit c = true) ∧
    (⌊rand * 16777215⌋).toNat ≤ 16777214 ∧
    Letters.getRandomHexColor rand ≠ "#ffffff" := by
  have hflt : rand * 16777215 < 16777215 := by nlinarith
  have hfloor : ⌊rand * 16777215⌋ < 16777215 := by
    rw [Int.floor_lt]
    exact_mod_cast hflt
  have hn : (⌊rand * 16777215⌋).toNat ≤ 16777214 := by omega
  have hlen : (Letters.natToHex (⌊rand * 16777215⌋).toNat).length ≤ 6 :=
    Letters.natToHex_length_le 6 _ (by norm_num) (by norm_num; omega)
  have hpadlen :
      (Letters.padStart 6 '0'
        (Letters.natToHex (⌊rand * 16777215⌋).toNat)).length = 6 := by
    simp [Letters.padStart]
    omega
  refine ⟨?_, rfl, ?_, hn, ?_⟩
  · show ('#' :: Letters.padStart 6 '0'
      (Letters.natToHex (⌊rand * 16777215⌋).toNat)).length = 7
    rw [List.length_cons, hpadlen]
  · intro c hc
    have hc2 : c ∈ Letters.padStart 6 '0'
        (Letters.natToHex (⌊rand * 16777215⌋).toNat) := hc
    rw [Letters.padStart, List.mem_append] at hc2
    rcases hc2 with hc2 | hc2
    · have := List.eq_of_mem_replicate hc2
      subst this
      decide
    · exact Letters.natToHex_mem_isHexDigit _ c hc2
  · intro heq
    have hdata : '#' :: Letters.padStart 6 '0'
        (Letters.natToHex (⌊rand * 16777215⌋).toNat) =
        ['#', 'f', 'f', 'f', 'f', 'f', 'f'] := congrArg String.data heq
    have hpad : Letters.padStart 6 '0'
        (Letters.natToHex (⌊rand * 16777215⌋).toNat) =
        ['f', 'f', 'f', 'f', 'f', 'f'] := by
      injection hdata
    have hval : Letters.fromHex (Letters.padStart 6 '0'
        (Letters.natToHex (⌊rand * 16777215⌋).toNat)) =
        (⌊rand * 16777215⌋).toNat := by
      rw [Letters.padStart, Letters.fromHex_replicate_zero,
        Letters.fromHex_natToHex]
    rw [hpad] at hval
    have : Letters.fromHex ['f', 'f', 'f', 'f', 'f', 'f'] = 16777215 := by
      decide
    omega

/-- C10 witness: the draw 1/2 yields `#7fffff`, a seven-character
hex color distinct from white. -/
theorem C10_hex_color_format_witness :
    (Letters.getRandomHexColor (1/2)).length = 7 ∧
    (Letters.getRandomHexColor (1/2)).data.head? = some '#' ∧
    (∀ c ∈ (Letters.getRandomHexColor (1/2)).data.tail,
      Letters.isHexDigit c = true) ∧
    (⌊(1/2 : ℚ) * 16777215⌋).toNat ≤ 16777214 ∧
    Letters.getRandomHexColor (1/2) ≠ "#ffffff" :=
  C10_hex_color_format (1/2) (by norm_num) (by norm_num)

namespace Letters

/-- Modelled from the spec: the scramble/reveal animator state of the
final variant (spec §3, §4.3) is not present under `src/` — only the
three non-animated variants are — so it is embedded from the spec's
words.  A regeneration cycle carries the cell list, the `FixedSet` of
frozen indices, the scramble interval's on/off state, and the remaining
reveal order (the unprocessed tail of the Fisher-Yates permutation). -/
structure AnimState where
  items : List GridItem
  fixed : Finset ℕ
  scrambleOn : Bool
  pending : List ℕ
  deriving DecidableEq

/-- Modelled from the spec: "when all indices have been added to the
fixed set, stop the scramble timer" — checked after each reveal step. -/
def settleCheck (s : AnimState) : AnimState :=
  if ∀ j < s.items.length, j ∈ s.fixed then { s with scrambleOn := false }
  else s

/-- Modelled from the spec: one reveal-scheduler step — "sequentially add
one index to the fixed set per step", then check the terminal
condition. -/
def revealStep (s : AnimState) : AnimState :=
  settleCheck
    (match s.pending with
     | [] => s
     | i :: rest => { s with fixed := insert i s.fixed, pending := rest })

/-- Modelled from the spec: one scramble tick — "reassigns letter+color
to every cell index NOT in the fixed set", only while the scramble
interval is running. -/
def scrambleTick (randLetter : ℕ → Char) (randColors : ℕ → String × String)
    (s : AnimState) : AnimState :=
  if s.scrambleOn then
    { s with items := s.items.mapIdx fun i item =>
        if i ∈ s.fixed then item
        else { item with
          letter := randLetter i
          bgColor := (randColors i).1
          fgColor := (randColors i).2 } }
  else s

/-- Modelled from the spec: the state right after a regeneration — fresh
cells, cleared fixed set, scramble timer running, full reveal
permutation pending. -/
def startCycle (items : List GridItem) (perm : List ℕ) : AnimState :=
  { items := items, fixed := ∅, scrambleOn := true, pending := perm }

theorem settleCheck_items (s : AnimState) : (settleCheck s).items = s.items := by
  unfold settleCheck
  split_ifs <;> rfl

theorem settleCheck_fixed (s : AnimState) : (settleCheck s).fixed = s.fixed := by
  unfold settleCheck
  split_ifs <;> rfl

theorem settleCheck_pending (s : AnimState) :
    (settleCheck s).pending = s.pending := by
  unfold settleCheck
  split_ifs <;> rfl

theorem revealStep_items (s : AnimState) : (revealStep s).items = s.items := by
  unfold revealStep
  rw [settleCheck_items]
  cases s.pending <;> rfl

theorem revealStep_pending (s : AnimState) :
    (revealStep s).pending = s.pending.tail := by
  unfold revealStep
  rw [settleCheck_pending]
  cases h : s.pending with
  | nil => exact h
  | cons i rest => rfl

theorem revealStep_fixed_sub (s : AnimState) :
    s.fixed ⊆ (revealStep s).fixed := by
  unfold revealStep
  rw [settleCheck_fixed]
  cases h : s.pending with
  | nil => exact Finset.Subset.refl s.fixed
  | cons i rest => exact Finset.subset_insert i s.fixed

theorem revealStep_fixed_head (s : AnimState) (i : ℕ) (rest : List ℕ)
    (h : s.pending = i :: rest) : i ∈ (revealStep s).fixed := by
  unfold revealStep
  rw [settleCheck_fixed, h]
  exact Finset.mem_insert_self i s.fixed

/-- Every index that is fixed or still pending is fixed after the whole
pending list has been processed. -/
theorem revealIter_covers :
    ∀ (p : List ℕ) (s : AnimState), s.pending = p →
      ∀ x, (x ∈ s.fixed ∨ x ∈ p) → x ∈ (revealStep^[p.length] s).fixed := by
  intro p
  induction p with
  | nil =>
      intro s _ x hx
      simpa using hx.resolve_right (by simp)
  | cons i rest ih =>
      intro s hp x hx
      rw [List.length_cons, Function.iterate_succ_apply]
      refine ih (revealStep s) ?_ x ?_
      · rw [revealStep_pending, hp]
        rfl
      · rcases hx with hx | hx
        · exact Or.inl (revealStep_fixed_sub s hx)
        · rw [List.mem_cons] at hx
          rcases hx with hx | hx
          · exact Or.inl (hx ▸ revealStep_fixed_head s i rest hp)
          · exact Or.inr hx

theorem revealIter_items (k : ℕ) (s : AnimState) :
    (revealStep^[k] s).items = s.items := by
  induction k generalizing s with
  | zero => rfl
  | succ k ih => rw [Function.iterate_succ_apply, ih, revealStep_items]

/-- Whenever a reveal step ends with every index fixed, the scramble
timer is off afterwards. -/
theorem revealStep_settles (s : AnimState)
    (h : ∀ j < (revealStep s).items.length, j ∈ (revealStep s).fixed) :
    (revealStep s).scrambleOn = false := by
  unfold revealStep at h ⊢
  cases hp : s.pending with
  | nil =>
      rw [hp] at h
      rw [settleCheck_items, settleCheck_fixed] at h
      unfold settleCheck
      rw [if_pos h]
  | cons i rest =>
      rw [hp] at h
      rw [settleCheck_items, settleCheck_fixed] at h
      unfold settleCheck
      rw [if_pos h]

/-- A stopped scramble timer means a tick changes nothing. -/
theorem scrambleTick_off (randLetter : ℕ → Char)
    (randColors : ℕ → String × String) (s : AnimState)
    (h : s.scrambleOn = false) :
    scrambleTick randLetter randColors s = s := by
  unfold scrambleTick
  rw [h]
  simp

end Letters

/-- C9 (spec-modelled): starting a regeneration cycle whose reveal
permutation covers every cell index of a nonempty grid, after the whole
permutation is processed every index is fixed, the scramble timer is
stopped, and any further scramble tick leaves the state — in particular
every cell — unchanged, until the next regeneration. -/
theorem C9_reveal_settles (items : List Letters.GridItem) (perm : List ℕ)
    (hne : 0 < items.length)
    (hcover : ∀ j < items.length, j ∈ perm) :
    (∀ j < (Letters.revealStep^[perm.length]
        (Letters.startCycle items perm)).items.length,
      j ∈ (Letters.revealStep^[perm.length]
        (Letters.startCycle items perm)).fixed) ∧
    (Letters.revealStep^[perm.length]
      (Letters.startCycle items perm)).scrambleOn = false ∧
    (∀ randLetter randColors,
      Letters.scrambleTick randLetter randColors
        (Letters.revealStep^[perm.length] (Letters.startCycle items perm)) =
      Letters.revealStep^[perm.length] (Letters.startCycle items perm)) := by
  have hitems : (Letters.revealStep^[perm.length]
      (Letters.startCycle items perm)).items = items :=
    Letters.revealIter_items perm.length _
  have hcov : ∀ j < (Letters.revealStep^[perm.length]
      (Letters.startCycle items perm)).items.length,
      j ∈ (Letters.revealStep^[perm.length]
        (Letters.startCycle items perm)).fixed := by
    intro j hj
    rw [hitems] at hj
    exact Letters.revealIter_covers perm (Letters.startCycle items perm) rfl j
      (Or.inr (hcover j hj))
  have hpermne : perm ≠ [] := by
    intro hnil
    have h0 := hcover 0 hne
    rw [hnil] at h0
    exact absurd h0 (List.not_mem_nil 0)
  have hlen : perm.length = (perm.length - 1) + 1 := by
    cases perm with
    | nil => exact absurd rfl hpermne
    | cons a l => simp
  have hsettled : (Letters.revealStep^[perm.length]
      (Letters.startCycle items perm)).scrambleOn = false := by
    rw [hlen] at hcov ⊢
    rw [Function.iterate_succ_apply'] at hcov ⊢
    exact Letters.revealStep_settles _ hcov
  exact ⟨hcov, hsettled,
    fun randLetter randColors =>
      Letters.scrambleTick_off randLetter randColors _ hsettled⟩

/-- C9 witness: a one-cell grid with reveal permutation [0] settles after
one step. -/
theorem C9_reveal_settles_witness :
    (∀ j < (Letters.revealStep^[[0].length]
        (Letters.startCycle [⟨(0, 0), 'A', "#ffbe0b", "#fb5607"⟩] [0])).items.length,
      j ∈ (Letters.revealStep^[[0].length]
        (Letters.startCycle [⟨(0, 0), 'A', "#ffbe0b", "#fb5607"⟩] [0])).fixed) ∧
    (Letters.revealStep^[[0].length]
      (Letters.startCycle [⟨(0, 0), 'A', "#ffbe0b", "#fb5607"⟩] [0])).scrambleOn =
      false ∧
    (∀ randLetter randColors,
      Letters.scrambleTick randLetter randColors
        (Letters.revealStep^[[0].length]
          (Letters.startCycle [⟨(0, 0), 'A', "#ffbe0b", "#fb5607"⟩] [0])) =
      Letters.revealStep^[[0].length]
        (Letters.startCycle [⟨(0, 0), 'A', "#ffbe0b", "#fb5607"⟩] [0])) :=
  C9_reveal_settles [⟨(0, 0), 'A', "#ffbe0b", "#fb5607"⟩] [0]
    (by norm_num) (by decide)
